import Mathlib

/-!
Shallow embedding of the MVT layer core
(src/modules/geo-layers/src/mvt-layer/mvt-layer.js):
feature identity resolution (`getFeatureUniqueId`), rendered-feature
collection (`getRenderedFeatures`), viewport feature aggregation
(`getViewportFeatures`), tile placement transforms (`getModelMatrixScale`,
`getCoordinateOrigin`), frustum containment
(`checkIfCoordsAreInsideFrustum`, `coordIsInPlanes`), and the TileJSON
zoom-bound tightening of `_updateTileData`.

JavaScript numbers are modelled as exact rationals (ℚ); property values
and feature identities as a small `JsValue` universe; code that can throw
a runtime `TypeError` (property access on `undefined`, math.gl
`Matrix4.transform` on a vector of illegal length) is modelled in
`Except Unit`.
-/

namespace MVT

/-- A JavaScript scalar value as it occurs in feature properties,
feature ids and the resolved feature identity. `jsUndefined` is JavaScript
`undefined` (e.g. a property lookup miss); the sentinel identity used by
the source is `num (-1)`. -/
inductive JsValue where
  | jsUndefined : JsValue
  | null : JsValue
  | num (n : ℚ) : JsValue
  | str (s : String) : JsValue
  | boolean (b : Bool) : JsValue
deriving DecidableEq

/-- GeoJSON-style nested coordinates: a leaf position is a non-empty array
of numbers (`pos x rest` models the array `x :: rest`), and `arr` is an
array of nested structures (rings, lines, multi-geometries). -/
inductive Coords where
  | pos (x : ℚ) (rest : List ℚ) : Coords
  | arr (cs : List Coords) : Coords

/-- The part of a GeoJSON geometry that the frustum check reads. -/
structure Geometry where
  coordinates : Coords

/-- A decoded vector-tile feature. `properties = none` models a feature
object without a `properties` map (JS `feature.properties === undefined`);
`id = some v` models a feature whose top-level `id` field is present
(JS `'id' in feature`) with value `v` (which may itself be `undefined`). -/
structure Feature where
  properties : Option (List (String × JsValue))
  id : Option JsValue
  geometry : Geometry

/-- One element of the picking result list consumed by
`getRenderedFeatures`: the source reads only `f.object`. -/
structure PickedObject where
  object : Feature

/-- JavaScript object property lookup on a property map: the stored value
when the key is present, `undefined` otherwise. -/
def lookupProp (props : List (String × JsValue)) (key : String) : JsValue :=
  match props.find? (fun kv => kv.1 == key) with
  | some kv => kv.2
  | none => .jsUndefined

/-- Embedding of `getFeatureUniqueId(feature, uniqueIdProperty)`.
`if (uniqueIdProperty)` is string truthiness (non-empty);
`feature.properties[uniqueIdProperty]` throws a `TypeError` when the
feature has no `properties` map, modelled as `.error ()`; `'id' in
feature` is `feature.id.isSome`. -/
def getFeatureUniqueId (feature : Feature) (uniqueIdProperty : String) :
    Except Unit JsValue :=
  if uniqueIdProperty ≠ "" then
    match feature.properties with
    | some props => .ok (lookupProp props uniqueIdProperty)
    | none => .error ()
  else
    match feature.id with
    | some v => .ok v
    | none => .ok (.num (-1))

/-- Total reading of the resolved identity, used to state properties of
successful runs: the resolved value when resolution succeeds, and the
sentinel `-1` otherwise (a feature whose resolution throws can never be an
element of a successfully returned list, so the default is never
observed there). -/
def resolvedId (uniqueIdProperty : String) (feature : Feature) : JsValue :=
  match getFeatureUniqueId feature uniqueIdProperty with
  | .ok v => v
  | .error _ => .num (-1)

/-- The loop body of `getRenderedFeatures`, with the `featureCache` set
(modelled as a list of already-seen identities) made explicit. A feature
whose identity is the sentinel `-1` is always pushed; otherwise it is
pushed only if its identity is not in the cache, which is then updated. -/
def getRenderedFeaturesAux (uniqueIdProperty : String) :
    List PickedObject → List JsValue → Except Unit (List Feature)
  | [], _ => .ok []
  | f :: fs, featureCache =>
    match getFeatureUniqueId f.object uniqueIdProperty with
    | .error e => .error e
    | .ok featureId =>
      if featureId = .num (-1) then
        match getRenderedFeaturesAux uniqueIdProperty fs featureCache with
        | .error e => .error e
        | .ok rest => .ok (f.object :: rest)
      else if featureId ∈ featureCache then
        getRenderedFeaturesAux uniqueIdProperty fs featureCache
      else
        match getRenderedFeaturesAux uniqueIdProperty fs (featureId :: featureCache) with
        | .error e => .error e
        | .ok rest => .ok (f.object :: rest)

/-- Embedding of `getRenderedFeatures(maxFeatures)`: the input list is the
ordered picking result `this._pickObjects(maxFeatures)` (produced by the
external picking system), and the cache starts empty. -/
def getRenderedFeatures (uniqueIdProperty : String) (features : List PickedObject) :
    Except Unit (List Feature) :=
  getRenderedFeaturesAux uniqueIdProperty features []

/-- A frustum plane: unit-length normal and signed distance, as produced
by `viewport.getFrustumPlanes()`. The JS object maps plane names to
planes; `coordIsInPlanes` iterates over all of them, so the embedding
keeps only the ordered list of planes. -/
structure FrustumPlane where
  normal : ℚ × ℚ × ℚ
  distance : ℚ

/-- `normal.dot(coords)` for a math.gl `Vector3` normal: the dot product
with the first three components of `coords`. -/
def dot3 (n : ℚ × ℚ × ℚ) (v : List ℚ) : ℚ :=
  n.1 * v.headD 0 + n.2.1 * (v.drop 1).headD 0 + n.2.2 * (v.drop 2).headD 0

/-- Embedding of `coordIsInPlanes(frustumPlanes, coords)`: the point is
inside iff `normal.dot(coords) < distance` holds for every plane. -/
def coordIsInPlanes (frustumPlanes : List FrustumPlane) (coords : List ℚ) : Bool :=
  frustumPlanes.all fun p => dot3 p.normal coords < p.distance

/-- math.gl `Matrix4.transform(v)`: applies the matrix (modelled
abstractly as the function `m` on coordinate vectors) when `v` has length
2, 3 or 4, and throws `Illegal vector` otherwise. -/
def matTransform (m : List ℚ → List ℚ) (v : List ℚ) : Except Unit (List ℚ) :=
  if 2 ≤ v.length ∧ v.length ≤ 4 then .ok (m v) else .error ()

mutual

/-- Embedding of `checkIfCoordsAreInsideFrustum(matrix, frustumPlanes,
coords)`. A structure whose first element is a number is a leaf position:
it is transformed, a `0` z-component is appended (`.concat(0)`), and the
point is tested against every plane. Otherwise the children are scanned
with `.some(...)` (so an empty array yields `false`). -/
def checkIfCoordsAreInsideFrustum (m : List ℚ → List ℚ)
    (frustumPlanes : List FrustumPlane) : Coords → Except Unit Bool
  | .pos x rest =>
    match matTransform m (x :: rest) with
    | .error e => .error e
    | .ok t => .ok (coordIsInPlanes frustumPlanes (t ++ [0]))
  | .arr cs => coordsSome m frustumPlanes cs

/-- The `coords.some(c => ...)` scan of `checkIfCoordsAreInsideFrustum`:
a child whose first element is itself an array is recursed into;
any other child is transformed and tested directly (an empty child array
reaches `matrix.transform([])`, which throws). -/
def coordsSome (m : List ℚ → List ℚ) (frustumPlanes : List FrustumPlane) :
    List Coords → Except Unit Bool
  | [] => .ok false
  | c :: cs =>
    match c with
    | .arr (c0 :: crest) =>
      match checkIfCoordsAreInsideFrustum m frustumPlanes (.arr (c0 :: crest)) with
      | .error e => .error e
      | .ok b => if b then .ok true else coordsSome m frustumPlanes cs
    | .arr [] =>
      match matTransform m [] with
      | .error e => .error e
      | .ok t =>
        if coordIsInPlanes frustumPlanes (t ++ [0]) then .ok true
        else coordsSome m frustumPlanes cs
    | .pos x rest =>
      match matTransform m (x :: rest) with
      | .error e => .error e
      | .ok t =>
        if coordIsInPlanes frustumPlanes (t ++ [0]) then .ok true
        else coordsSome m frustumPlanes cs

end

mutual

/-- The leaf positions (maximal number arrays) of a coordinate
structure, in scan order. -/
def leafPositions : Coords → List (List ℚ)
  | .pos x rest => [x :: rest]
  | .arr cs => leafPositionsList cs

/-- Leaf positions of a list of coordinate structures, in order. -/
def leafPositionsList : List Coords → List (List ℚ)
  | [] => []
  | c :: cs => leafPositions c ++ leafPositionsList cs

end

mutual

/-- Well-formed coordinate structures: every leaf position has dimension
2–4 (so `Matrix4.transform` accepts it) and no nested array is empty
(an empty child reaches `matrix.transform([])`, which throws). The
top-level structure may be the empty array. This is the §4.1 contract:
inputs are well-formed geometries from a trusted decoder. -/
def Coords.wfB : Coords → Bool
  | .pos _ rest => 1 ≤ rest.length && rest.length ≤ 3
  | .arr cs => wfListB cs

/-- Well-formedness of the children of an `arr` node: each child is
well-formed and no child is the empty array. -/
def wfListB : List Coords → Bool
  | [] => true
  | .pos x rest :: cs => Coords.wfB (.pos x rest) && wfListB cs
  | .arr [] :: _ => false
  | .arr (c0 :: crest) :: cs => wfListB (c0 :: crest) && wfListB cs

end

/-- `const WORLD_SIZE = 512`. -/
def WORLD_SIZE : ℚ := 512

/-- A tile as read by this core: integer quad-tree indices and the `data`
slot, which holds a feature array once decoded (`none` models any
non-array value, e.g. still-pending data). -/
structure Tile where
  x : Int
  y : Int
  z : Nat
  data : Option (List Feature)

/-- Embedding of `getModelMatrixScale(tile)`:
`[WORLD_SIZE / 2^z, -(WORLD_SIZE / 2^z), 1]`. -/
def getModelMatrixScale (tile : Tile) : ℚ × ℚ × ℚ :=
  let worldScale : ℚ := 2 ^ tile.z
  let xScale := WORLD_SIZE / worldScale
  let yScale := -xScale
  (xScale, yScale, 1)

/-- Embedding of `getCoordinateOrigin(tile)`:
`[WORLD_SIZE * x / 2^z, WORLD_SIZE * (1 - y / 2^z), 0]`. -/
def getCoordinateOrigin (tile : Tile) : ℚ × ℚ × ℚ :=
  let worldScale : ℚ := 2 ^ tile.z
  let xOffset := WORLD_SIZE * (tile.x : ℚ) / worldScale
  let yOffset := WORLD_SIZE * (1 - (tile.y : ℚ) / worldScale)
  (xOffset, yOffset, 0)

/-- The per-tile transformation matrix of `getViewportFeatures`:
`new Matrix4().translate(getCoordinateOrigin(tile)).scale(getModelMatrixScale(tile))`,
acting on vectors the way math.gl `Matrix4.transform` does (length 2:
point transform; length 3: affine transform; length 4: homogeneous). -/
def tileMatrix (tile : Tile) : List ℚ → List ℚ :=
  let s := getModelMatrixScale tile
  let o := getCoordinateOrigin tile
  fun v =>
    match v with
    | [vx, vy] => [s.1 * vx + o.1, s.2.1 * vy + o.2.1]
    | [vx, vy, vz] => [s.1 * vx + o.1, s.2.1 * vy + o.2.1, s.2.2 * vz + o.2.2]
    | [vx, vy, vz, vw] =>
      [s.1 * vx + o.1 * vw, s.2.1 * vy + o.2.1 * vw, s.2.2 * vz + o.2.2 * vw, vw]
    | other => other

/-- The `data.filter(f => ...)` step of `getViewportFeatures` for one
tile, with the call-wide `featureCache` threaded through: a feature is
kept iff its identity is not yet cached and its raw geometry passes the
frustum test; its identity is then cached. The cache test short-circuits
before the frustum test, as in `!featureCache.has(featureId) &&
checkIfCoordsAreInsideFrustum(...)`. -/
def filterTileFeatures (uniqueIdProperty : String) (frustumPlanes : List FrustumPlane)
    (m : List ℚ → List ℚ) :
    List Feature → List JsValue → Except Unit (List Feature × List JsValue)
  | [], featureCache => .ok ([], featureCache)
  | f :: fs, featureCache =>
    match getFeatureUniqueId f uniqueIdProperty with
    | .error e => .error e
    | .ok featureId =>
      if featureId ∈ featureCache then
        filterTileFeatures uniqueIdProperty frustumPlanes m fs featureCache
      else
        match checkIfCoordsAreInsideFrustum m frustumPlanes f.geometry.coordinates with
        | .error e => .error e
        | .ok inside =>
          if inside then
            match filterTileFeatures uniqueIdProperty frustumPlanes m fs
                (featureId :: featureCache) with
            | .error e => .error e
            | .ok (kept, cacheOut) => .ok (f :: kept, cacheOut)
          else
            filterTileFeatures uniqueIdProperty frustumPlanes m fs featureCache

/-- The `tileset.selectedTiles.forEach(tile => ...)` loop of
`getViewportFeatures`: tiles whose `data` is not an array are skipped;
each tile's features are filtered with that tile's transformation matrix,
the kept features concatenated, and the `featureCache` shared across all
tiles. -/
def getViewportFeaturesAux (uniqueIdProperty : String)
    (frustumPlanes : List FrustumPlane) :
    List Tile → List JsValue → Except Unit (List Feature × List JsValue)
  | [], featureCache => .ok ([], featureCache)
  | tile :: tiles, featureCache =>
    match tile.data with
    | none => getViewportFeaturesAux uniqueIdProperty frustumPlanes tiles featureCache
    | some data =>
      match filterTileFeatures uniqueIdProperty frustumPlanes (tileMatrix tile)
          data featureCache with
      | .error e => .error e
      | .ok (kept, cache1) =>
        match getViewportFeaturesAux uniqueIdProperty frustumPlanes tiles cache1 with
        | .error e => .error e
        | .ok (rest, cache2) => .ok (kept ++ rest, cache2)

/-- Embedding of `getViewportFeatures()`: the frustum planes are obtained
once from the viewport, the cache starts empty, and the accumulated
feature list is returned. -/
def getViewportFeatures (selectedTiles : List Tile) (uniqueIdProperty : String)
    (frustumPlanes : List FrustumPlane) : Except Unit (List Feature) :=
  match getViewportFeaturesAux uniqueIdProperty frustumPlanes selectedTiles [] with
  | .error e => .error e
  | .ok (viewportFeatures, _) => .ok viewportFeatures

/-- The zoom-relevant fields of a fetched TileJSON document:
`some q` models a declared, finite `minzoom`/`maxzoom` value
(`Number.isFinite(...)` true), `none` an absent or non-finite one. -/
structure TileJSONDoc where
  minzoom : Option ℚ
  maxzoom : Option ℚ

/-- The zoom-bound update step of `_updateTileData`: starting from the
caller-provided `props.minZoom` (a number, default 0) and `props.maxZoom`
(`some q` when finite, `none` for the default `null`), the document's
declared `minzoom` replaces `minZoom` only when it is larger, and its
declared `maxzoom` replaces `maxZoom` when `maxZoom` is non-finite or
`maxzoom` is smaller. -/
def updateTileDataZoom (propMinZoom : ℚ) (propMaxZoom : Option ℚ)
    (doc : TileJSONDoc) : ℚ × Option ℚ :=
  let minZoom :=
    match doc.minzoom with
    | some dm => if dm > propMinZoom then dm else propMinZoom
    | none => propMinZoom
  let maxZoom :=
    match doc.maxzoom with
    | some dM =>
      match propMaxZoom with
      | none => some dM
      | some pM => if dM < pM then some dM else some pM
    | none => propMaxZoom
  (minZoom, maxZoom)

/-- Specification-side restatement of §4.5 `collectRendered`, carrying the
list of already-processed input features (`prev`): an element is kept iff
its resolved identity is the sentinel `-1`, or no previously processed
element bears the same identity. -/
def collectRenderedSpecAux (uniqueIdProperty : String) :
    List Feature → List PickedObject → List Feature
  | _, [] => []
  | prev, p :: rest =>
    if resolvedId uniqueIdProperty p.object = .num (-1) then
      p.object :: collectRenderedSpecAux uniqueIdProperty (prev ++ [p.object]) rest
    else if resolvedId uniqueIdProperty p.object ∈
        prev.map (resolvedId uniqueIdProperty) then
      collectRenderedSpecAux uniqueIdProperty (prev ++ [p.object]) rest
    else
      p.object :: collectRenderedSpecAux uniqueIdProperty (prev ++ [p.object]) rest

/-- Specification-side `collectRendered(hitResults, uniqueIdProperty)`:
the order-preserving sublist keeping every sentinel-identity element and,
for each defined identity, only its first occurrence. -/
def collectRenderedSpec (uniqueIdProperty : String)
    (hitResults : List PickedObject) : List Feature :=
  collectRenderedSpecAux uniqueIdProperty [] hitResults

/-- Claim C3: identity resolution returns
`feature.properties[configuredProperty]` when the configured property name
is non-empty (the lookup yielding `undefined` when the property is
absent), else the feature's top-level `id` field when present, else the
sentinel `-1`; and it is deterministic. -/
theorem getFeatureUniqueId_resolution (f : Feature) (props : List (String × JsValue))
    (uid : String) :
    (uid ≠ "" → f.properties = some props →
      getFeatureUniqueId f uid = .ok (lookupProp props uid)) ∧
    ((∀ kv ∈ props, kv.1 ≠ uid) → lookupProp props uid = .jsUndefined) ∧
    (uid = "" → ∀ v, f.id = some v → getFeatureUniqueId f uid = .ok v) ∧
    (uid = "" → f.id = none → getFeatureUniqueId f uid = .ok (.num (-1))) ∧
    getFeatureUniqueId f uid = getFeatureUniqueId f uid := by
  refine ⟨?_, ?_, ?_, ?_, rfl⟩
  · intro hu hp
    simp [getFeatureUniqueId, hu, hp]
  · intro habs
    have hnone : props.find? (fun kv => kv.1 == uid) = none := by
      rw [List.find?_eq_none]
      intro kv hkv
      simpa using habs kv hkv
    simp [lookupProp, hnone]
  · intro hu v hv
    simp [getFeatureUniqueId, hu, hv]
  · intro hu hv
    simp [getFeatureUniqueId, hu, hv]

/-- Witness for claim C3 at concrete inputs: a configured property that is
present, the top-level id fallback, the sentinel fallback, and the
undefined lookup miss. -/
theorem getFeatureUniqueId_resolution_witness :
    getFeatureUniqueId ⟨some [("kind", .str "river")], some (.num 7), ⟨.arr []⟩⟩ "kind" =
      .ok (lookupProp [("kind", .str "river")] "kind") ∧
    getFeatureUniqueId ⟨none, some (.num 7), ⟨.arr []⟩⟩ "" = .ok (.num 7) ∧
    getFeatureUniqueId ⟨none, none, ⟨.arr []⟩⟩ "" = .ok (.num (-1)) ∧
    lookupProp [("kind", .str "river")] "other" = .jsUndefined :=
  ⟨(getFeatureUniqueId_resolution _ [("kind", .str "river")] "kind").1 (by decide) rfl,
   (getFeatureUniqueId_resolution ⟨none, some (.num 7), ⟨.arr []⟩⟩ [] "").2.2.1 rfl
     (.num 7) rfl,
   (getFeatureUniqueId_resolution ⟨none, none, ⟨.arr []⟩⟩ [] "").2.2.2.1 rfl rfl,
   (getFeatureUniqueId_resolution ⟨none, none, ⟨.arr []⟩⟩ [("kind", .str "river")]
     "other").2.1 (by decide)⟩

/-- Counterexample to claim C9 as stated: for a feature lacking a
`properties` map and a non-empty configured property name, the property
access `feature.properties[uniqueIdProperty]` throws a `TypeError`
rather than returning a value. -/
theorem getFeatureUniqueId_throws_cex :
    getFeatureUniqueId ⟨none, some (.num 5), ⟨.arr []⟩⟩ "cartodb_id" = .error () := rfl

/-- Claim C9 (amended): the identity resolver never throws provided the
configured property name is empty or the feature has a `properties` map;
with a non-empty configured property and no `properties` map, the
property access throws. -/
theorem getFeatureUniqueId_total_amended (f : Feature) (uid : String)
    (h : uid = "" ∨ f.properties.isSome) :
    ∃ v, getFeatureUniqueId f uid = .ok v := by
  by_cases hu : uid = ""
  · cases hv : f.id with
    | some v => exact ⟨v, by simp [getFeatureUniqueId, hu, hv]⟩
    | none => exact ⟨.num (-1), by simp [getFeatureUniqueId, hu, hv]⟩
  · cases hp : f.properties with
    | some props => exact ⟨lookupProp props uid, by simp [getFeatureUniqueId, hu, hp]⟩
    | none =>
      rcases h with h | h
      · exact absurd h hu
      · rw [hp] at h
        simp at h

/-- Witness for claim C9 (amended) at a concrete feature without any
identity. -/
theorem getFeatureUniqueId_total_amended_witness :
    ∃ v, getFeatureUniqueId ⟨none, none, ⟨.arr []⟩⟩ "" = .ok v :=
  getFeatureUniqueId_total_amended ⟨none, none, ⟨.arr []⟩⟩ "" (Or.inl rfl)

/-- Claim C6: the placement scale is `(W/2^z, -(W/2^z), 1)` with the
vertical component the negation of the horizontal one, the placement
origin is `(W*x/2^z, W*(1 - y/2^z), 0)` with `W = 512`, and for tile
`(1, 1, 1)` they are `(256, -256, 1)` and `(256, 256, 0)`. -/
theorem placement_scale_origin (t : Tile) :
    WORLD_SIZE = 512 ∧
    getModelMatrixScale t =
      (WORLD_SIZE / 2 ^ t.z, -(WORLD_SIZE / 2 ^ t.z), 1) ∧
    (getModelMatrixScale t).2.1 = -(getModelMatrixScale t).1 ∧
    getCoordinateOrigin t =
      (WORLD_SIZE * (t.x : ℚ) / 2 ^ t.z, WORLD_SIZE * (1 - (t.y : ℚ) / 2 ^ t.z), 0) ∧
    getModelMatrixScale ⟨1, 1, 1, none⟩ = (256, -256, 1) ∧
    getCoordinateOrigin ⟨1, 1, 1, none⟩ = (256, 256, 0) := by
  refine ⟨rfl, rfl, rfl, rfl, ?_, ?_⟩
  · simp only [getModelMatrixScale, WORLD_SIZE, Prod.mk.injEq]
    norm_num
  · simp only [getCoordinateOrigin, WORLD_SIZE, Prod.mk.injEq]
    norm_num

/-- Claim C8: with a declared finite document `minzoom`/`maxzoom`, the
resulting bounds are `max` of the caller minimum and `min` of the caller
maximum; the minimum is never lowered and the maximum never raised beyond
the caller-provided bounds. -/
theorem updateTileData_tightens (pm q dm dM : ℚ) (pMax dMin dMax : Option ℚ) :
    (updateTileDataZoom pm pMax ⟨some dm, dMax⟩).1 = max pm dm ∧
    (updateTileDataZoom pm (some q) ⟨dMin, some dM⟩).2 = some (min q dM) ∧
    (updateTileDataZoom pm none ⟨dMin, some dM⟩).2 = some dM ∧
    pm ≤ (updateTileDataZoom pm pMax ⟨dMin, dMax⟩).1 ∧
    (∀ r, (updateTileDataZoom pm (some q) ⟨dMin, dMax⟩).2 = some r → r ≤ q) := by
  refine ⟨?_, ?_, rfl, ?_, ?_⟩
  · by_cases h : dm > pm
    · simp [updateTileDataZoom, h, max_eq_right h.le]
    · simp [updateTileDataZoom, h, max_eq_left (not_lt.mp h)]
  · by_cases h : dM < q
    · simp [updateTileDataZoom, h, min_eq_right h.le]
    · simp [updateTileDataZoom, h, min_eq_left (not_lt.mp h)]
  · cases dMin with
    | none => simp [updateTileDataZoom]
    | some dm2 =>
      by_cases h : dm2 > pm
      · simp [updateTileDataZoom, h, h.le]
      · simp [updateTileDataZoom, h]
  · intro r hr
    cases dMax with
    | none =>
      simp [updateTileDataZoom] at hr
      simp [hr]
    | some dM2 =>
      by_cases h : dM2 < q
      · simp [updateTileDataZoom, h] at hr
        simp [← hr, h.le]
      · simp [updateTileDataZoom, h] at hr
        simp [hr]

/-- Witness for claim C8 at concrete zoom bounds: caller bounds `[2, 8]`,
document bounds `[5, 6]`. -/
theorem updateTileData_tightens_witness :
    (updateTileDataZoom 2 (some 8) ⟨some 5, some 6⟩).1 = max 2 5 ∧
    (updateTileDataZoom 2 (some 8) ⟨some 5, some 6⟩).2 = some (min 8 6) ∧
    (6 : ℚ) ≤ 8 :=
  ⟨(updateTileData_tightens 2 8 5 6 (some 8) (some 5) (some 6)).1,
   (updateTileData_tightens 2 8 5 6 (some 8) (some 5) (some 6)).2.1,
   (updateTileData_tightens 2 8 5 6 (some 8) (some 5) (some 6)).2.2.2.2 6
     (by norm_num [updateTileDataZoom])⟩

/-- The resolved identity of a feature whose resolution succeeded. -/
theorem resolvedId_eq_of_ok {uid : String} {f : Feature} {v : JsValue}
    (h : getFeatureUniqueId f uid = .ok v) : resolvedId uid f = v := by
  simp [resolvedId, h]

/-- Invariant of the `getRenderedFeatures` loop: every returned feature
has the sentinel identity or an identity outside the incoming cache, and
no two returned features share a defined identity. -/
theorem getRenderedFeaturesAux_inv (uid : String) :
    ∀ (fs : List PickedObject) (cache : List JsValue) (res : List Feature),
      getRenderedFeaturesAux uid fs cache = .ok res →
      (∀ f ∈ res, resolvedId uid f = .num (-1) ∨ resolvedId uid f ∉ cache) ∧
      res.Pairwise (fun f g => resolvedId uid f = resolvedId uid g →
        resolvedId uid f = .num (-1)) := by
  intro fs
  induction fs with
  | nil =>
    intro cache res h
    simp only [getRenderedFeaturesAux, Except.ok.injEq] at h
    subst h
    simp
  | cons f fs ih =>
    intro cache res h
    simp only [getRenderedFeaturesAux] at h
    split at h
    · simp at h
    · rename_i fid hid
      have hres : resolvedId uid f.object = fid := resolvedId_eq_of_ok hid
      split at h
      · rename_i hsent
        split at h
        · simp at h
        · rename_i rest hrec
          simp only [Except.ok.injEq] at h
          subst h
          obtain ⟨h1, h2⟩ := ih cache rest hrec
          constructor
          · intro g hg
            rcases List.mem_cons.mp hg with rfl | hg
            · exact Or.inl (hres.trans hsent)
            · exact h1 g hg
          · rw [List.pairwise_cons]
            exact ⟨fun g hg _ => hres.trans hsent, h2⟩
      · rename_i hsent
        split at h
        · exact ih cache res h
        · rename_i hmem
          split at h
          · simp at h
          · rename_i rest hrec
            simp only [Except.ok.injEq] at h
            subst h
            obtain ⟨h1, h2⟩ := ih (fid :: cache) rest hrec
            constructor
            · intro g hg
              rcases List.mem_cons.mp hg with rfl | hg
              · exact Or.inr (hres ▸ hmem)
              · rcases h1 g hg with hs | hnin
                · exact Or.inl hs
                · exact Or.inr fun hc => hnin (List.mem_cons_of_mem _ hc)
            · rw [List.pairwise_cons]
              refine ⟨fun g hg heq => ?_, h2⟩
              rcases h1 g hg with hs | hnin
              · exact heq.trans hs
              · exact absurd (by rw [← heq, hres]; exact List.mem_cons_self _ _) hnin

/-- Refinement of the `getRenderedFeatures` loop by the specification
collector: when the cache holds exactly the defined identities of the
already-processed features `prev`, the loop computes
`collectRenderedSpecAux`. -/
theorem getRenderedFeaturesAux_eq_spec (uid : String) :
    ∀ (fs : List PickedObject) (cache : List JsValue) (prev : List Feature),
      (∀ v, v ∈ cache ↔ (v ≠ .num (-1) ∧ v ∈ prev.map (resolvedId uid))) →
      ∀ res, getRenderedFeaturesAux uid fs cache = .ok res →
        res = collectRenderedSpecAux uid prev fs := by
  intro fs
  induction fs with
  | nil =>
    intro cache prev hinv res h
    simp only [getRenderedFeaturesAux, Except.ok.injEq] at h
    subst h
    rfl
  | cons f fs ih =>
    intro cache prev hinv res h
    simp only [getRenderedFeaturesAux] at h
    split at h
    · simp at h
    · rename_i fid hid
      have hres : resolvedId uid f.object = fid := resolvedId_eq_of_ok hid
      split at h
      · rename_i hsent
        split at h
        · simp at h
        · rename_i rest hrec
          simp only [Except.ok.injEq] at h
          subst h
          rw [collectRenderedSpecAux, if_pos (hres.trans hsent)]
          congr 1
          refine ih cache (prev ++ [f.object]) ?_ rest hrec
          intro v
          rw [hinv v]
          simp only [List.map_append, List.map_cons, List.map_nil, List.mem_append,
            List.mem_singleton]
          constructor
          · rintro ⟨h1, h2⟩
            exact ⟨h1, Or.inl h2⟩
          · rintro ⟨h1, h2 | h2⟩
            · exact ⟨h1, h2⟩
            · exact absurd (h2.trans (hres.trans hsent)) h1
      · rename_i hsent
        split at h
        · rename_i hmem
          have hfid := (hinv fid).mp hmem
          rw [collectRenderedSpecAux, if_neg (by rw [hres]; exact hsent),
            if_pos (by rw [hres]; exact hfid.2)]
          refine ih cache (prev ++ [f.object]) ?_ res h
          intro v
          rw [hinv v]
          simp only [List.map_append, List.map_cons, List.map_nil, List.mem_append,
            List.mem_singleton]
          constructor
          · rintro ⟨h1, h2⟩
            exact ⟨h1, Or.inl h2⟩
          · rintro ⟨h1, h2 | h2⟩
            · exact ⟨h1, h2⟩
            · refine ⟨h1, ?_⟩
              rw [h2, hres]
              exact hfid.2
        · rename_i hmem
          split at h
          · simp at h
          · rename_i rest hrec
            simp only [Except.ok.injEq] at h
            subst h
            have hnotprev : fid ∉ prev.map (resolvedId uid) :=
              fun hp => hmem ((hinv fid).mpr ⟨hsent, hp⟩)
            rw [collectRenderedSpecAux, if_neg (by rw [hres]; exact hsent),
              if_neg (by rw [hres]; exact hnotprev)]
            congr 1
            refine ih (fid :: cache) (prev ++ [f.object]) ?_ rest hrec
            intro v
            simp only [List.mem_cons, hinv v, List.map_append, List.map_cons,
              List.map_nil, List.mem_append, List.mem_singleton, List.not_mem_nil,
              or_false]
            constructor
            · rintro (rfl | ⟨h1, h2⟩)
              · exact ⟨hsent, Or.inr hres.symm⟩
              · exact ⟨h1, Or.inl h2⟩
            · rintro ⟨h1, h2 | h2⟩
              · exact Or.inr ⟨h1, h2⟩
              · exact Or.inl (h2.trans hres.symm.symm)

/-- Claim C4: `getRenderedFeatures` returns the order-preserving sublist
of the hit-test results containing every element whose resolved identity
is the sentinel `-1` and, for each defined identity, only the first
element bearing it. -/
theorem getRenderedFeatures_eq_spec (uid : String) (hitResults : List PickedObject)
    (res : List Feature) (h : getRenderedFeatures uid hitResults = .ok res) :
    res = collectRenderedSpec uid hitResults :=
  getRenderedFeaturesAux_eq_spec uid hitResults [] [] (by simp) res h

/-- Witness for claim C4 on the spec scenario `[{id:1}, {id:1},
{sentinel}]`: the collected rendered features are the first `id = 1`
object and the sentinel object. -/
theorem getRenderedFeatures_eq_spec_witness :
    ([⟨none, some (.num 1), ⟨.arr []⟩⟩, ⟨none, none, ⟨.arr []⟩⟩] : List Feature) =
      collectRenderedSpec ""
        [⟨⟨none, some (.num 1), ⟨.arr []⟩⟩⟩, ⟨⟨none, some (.num 1), ⟨.arr []⟩⟩⟩,
          ⟨⟨none, none, ⟨.arr []⟩⟩⟩] :=
  getRenderedFeatures_eq_spec "" _ _ rfl

/-- The `getRenderedFeatures` loop keeps every sentinel-identity input
element: the sentinel elements of the output are exactly the sentinel
elements of the input, in order. -/
theorem getRenderedFeaturesAux_keeps_sentinels (uid : String) :
    ∀ (fs : List PickedObject) (cache : List JsValue) (res : List Feature),
      getRenderedFeaturesAux uid fs cache = .ok res →
      res.filter (fun f => decide (resolvedId uid f = .num (-1))) =
        (fs.map PickedObject.object).filter
          (fun f => decide (resolvedId uid f = .num (-1))) := by
  intro fs
  induction fs with
  | nil =>
    intro cache res h
    simp only [getRenderedFeaturesAux, Except.ok.injEq] at h
    subst h
    rfl
  | cons f fs ih =>
    intro cache res h
    simp only [getRenderedFeaturesAux] at h
    split at h
    · simp at h
    · rename_i fid hid
      have hres : resolvedId uid f.object = fid := resolvedId_eq_of_ok hid
      split at h
      · rename_i hsent
        split at h
        · simp at h
        · rename_i rest hrec
          simp only [Except.ok.injEq] at h
          subst h
          simp only [List.map_cons, List.filter_cons, hres.trans hsent]
          simp only [decide_true_eq_true, decide_True, if_true]
          rw [ih cache rest hrec]
      · rename_i hsent
        have hd : decide (resolvedId uid f.object = .num (-1)) = false := by
          simp [hres, hsent]
        split at h
        · rw [ih cache res h]
          simp [List.filter_cons, hd]
        · rename_i hmem
          split at h
          · simp at h
          · rename_i rest hrec
            simp only [Except.ok.injEq] at h
            subst h
            simp only [List.map_cons, List.filter_cons, hd, Bool.false_eq_true,
              if_false]
            exact ih (fid :: cache) rest hrec

/-- Invariant of the per-tile filter of `getViewportFeatures`: the cache
only grows, every kept feature's identity is newly cached, and the kept
features have pairwise-distinct identities (the sentinel included). -/
theorem filterTileFeatures_inv (uid : String) (planes : List FrustumPlane)
    (m : List ℚ → List ℚ) :
    ∀ (fs : List Feature) (cache : List JsValue) (res : List Feature)
      (cacheOut : List JsValue),
      filterTileFeatures uid planes m fs cache = .ok (res, cacheOut) →
      (∀ v ∈ cache, v ∈ cacheOut) ∧
      (∀ f ∈ res, resolvedId uid f ∈ cacheOut ∧ resolvedId uid f ∉ cache) ∧
      res.Pairwise (fun f g => resolvedId uid f ≠ resolvedId uid g) := by
  intro fs
  induction fs with
  | nil =>
    intro cache res cacheOut h
    simp only [filterTileFeatures, Except.ok.injEq, Prod.mk.injEq] at h
    obtain ⟨h1, h2⟩ := h
    subst h1
    subst h2
    exact ⟨fun v hv => hv, by simp, by simp⟩
  | cons f fs ih =>
    intro cache res cacheOut h
    simp only [filterTileFeatures] at h
    split at h
    · simp at h
    · rename_i fid hid
      have hres : resolvedId uid f = fid := resolvedId_eq_of_ok hid
      split at h
      · exact ih cache res cacheOut h
      · rename_i hmem
        split at h
        · simp at h
        · rename_i inside hcheck
          split at h
          · split at h
            · simp at h
            · rename_i kept cache2 hrec
              simp only [Except.ok.injEq, Prod.mk.injEq] at h
              obtain ⟨h', rfl⟩ := h
              subst h'
              obtain ⟨h1, h2, h3⟩ := ih (fid :: cache) kept cache2 hrec
              refine ⟨fun v hv => h1 v (List.mem_cons_of_mem _ hv), ?_, ?_⟩
              · intro g hg
                rcases List.mem_cons.mp hg with rfl | hg
                · exact ⟨hres ▸ h1 fid (List.mem_cons_self _ _), hres ▸ hmem⟩
                · exact ⟨(h2 g hg).1,
                    fun hc => (h2 g hg).2 (List.mem_cons_of_mem _ hc)⟩
              · rw [List.pairwise_cons]
                refine ⟨fun g hg heq => ?_, h3⟩
                exact (h2 g hg).2 (by rw [← heq, hres]; exact List.mem_cons_self _ _)
          · exact ih cache res cacheOut h

/-- Invariant of the tile loop of `getViewportFeatures`: the shared cache
only grows across tiles, every returned feature's identity is newly
cached, and the returned features have pairwise-distinct identities. -/
theorem getViewportFeaturesAux_inv (uid : String) (planes : List FrustumPlane) :
    ∀ (tiles : List Tile) (cache : List JsValue) (res : List Feature)
      (cacheOut : List JsValue),
      getViewportFeaturesAux uid planes tiles cache = .ok (res, cacheOut) →
      (∀ v ∈ cache, v ∈ cacheOut) ∧
      (∀ f ∈ res, resolvedId uid f ∈ cacheOut ∧ resolvedId uid f ∉ cache) ∧
      res.Pairwise (fun f g => resolvedId uid f ≠ resolvedId uid g) := by
  intro tiles
  induction tiles with
  | nil =>
    intro cache res cacheOut h
    simp only [getViewportFeaturesAux, Except.ok.injEq, Prod.mk.injEq] at h
    exact ⟨fun v hv => h.2 ▸ hv, by simp [← h.1], by simp [← h.1]⟩
  | cons t ts ih =>
    intro cache res cacheOut h
    simp only [getViewportFeaturesAux] at h
    split at h
    · exact ih cache res cacheOut h
    · rename_i data hdata
      split at h
      · simp at h
      · rename_i kept cache1 hfilter
        split at h
        · simp at h
        · rename_i rest cache2 hrest
          simp only [Except.ok.injEq, Prod.mk.injEq] at h
          obtain ⟨h', rfl⟩ := h
          subst h'
          obtain ⟨f1, f2, f3⟩ :=
            filterTileFeatures_inv uid planes (tileMatrix t) data cache kept cache1 hfilter
          obtain ⟨g1, g2, g3⟩ := ih cache1 rest cache2 hrest
          refine ⟨fun v hv => g1 v (f1 v hv), ?_, ?_⟩
          · intro x hx
            rcases List.mem_append.mp hx with hx | hx
            · exact ⟨g1 _ (f2 x hx).1, (f2 x hx).2⟩
            · exact ⟨(g2 x hx).1, fun hc => (g2 x hx).2 (f1 _ hc)⟩
          · rw [List.pairwise_append]
            refine ⟨f3, g3, ?_⟩
            intro a ha b hb heq
            exact (g2 b hb).2 (heq ▸ (f2 a ha).1)

/-- The features returned by `getViewportFeatures` have pairwise-distinct
resolved identities, the sentinel `-1` included. -/
theorem getViewportFeatures_pairwise_distinct (tiles : List Tile) (uid : String)
    (planes : List FrustumPlane) (res : List Feature)
    (h : getViewportFeatures tiles uid planes = .ok res) :
    res.Pairwise (fun f g => resolvedId uid f ≠ resolvedId uid g) := by
  simp only [getViewportFeatures] at h
  split at h
  · simp at h
  · rename_i vf cacheOut haux
    simp only [Except.ok.injEq] at h
    subst h
    exact (getViewportFeaturesAux_inv uid planes tiles [] vf cacheOut haux).2.2

/-- Claim C2: no two elements of a successfully returned list of
`getRenderedFeatures` or `getViewportFeatures` share a defined (non `-1`)
identity, identity being resolved by `getFeatureUniqueId` with the
configured `uniqueIdProperty`. -/
theorem dedup_invariant :
    (∀ (uid : String) (hitResults : List PickedObject) (res : List Feature),
      getRenderedFeatures uid hitResults = .ok res →
      res.Pairwise (fun f g => resolvedId uid f = resolvedId uid g →
        resolvedId uid f = .num (-1))) ∧
    (∀ (tiles : List Tile) (uid : String) (planes : List FrustumPlane)
      (res : List Feature),
      getViewportFeatures tiles uid planes = .ok res →
      res.Pairwise (fun f g => resolvedId uid f = resolvedId uid g →
        resolvedId uid f = .num (-1))) := by
  constructor
  · intro uid hr res h
    exact (getRenderedFeaturesAux_inv uid hr [] res h).2
  · intro tiles uid planes res h
    exact (getViewportFeatures_pairwise_distinct tiles uid planes res h).imp
      fun hne heq => absurd heq hne

/-- The `.some(...)` scan of the frustum check, on well-formed children,
returns whether any leaf position below is inside all planes (by strong
induction on the size of the structure). -/
theorem coordsSome_eq (m : List ℚ → List ℚ) (planes : List FrustumPlane) :
    ∀ (n : ℕ) (cs : List Coords), sizeOf cs ≤ n → wfListB cs = true →
      coordsSome m planes cs =
        .ok ((leafPositionsList cs).any fun p => coordIsInPlanes planes (m p ++ [0])) := by
  intro n
  induction n with
  | zero =>
    intro cs hsz _
    exfalso
    cases cs with
    | nil => simp at hsz
    | cons c cs => simp at hsz
  | succ n ih =>
    intro cs hsz hwf
    match cs with
    | [] => rfl
    | .pos x rest :: cs2 =>
      simp only [wfListB, Bool.and_eq_true] at hwf
      have hb := hwf.1
      simp only [Coords.wfB, Bool.and_eq_true, decide_eq_true_eq] at hb
      have hmt : matTransform m (x :: rest) = .ok (m (x :: rest)) := by
        simp only [matTransform, List.length_cons]
        rw [if_pos]
        omega
      have hsz2 : sizeOf cs2 ≤ n := by simp at hsz; omega
      by_cases hin : coordIsInPlanes planes (m (x :: rest) ++ [0]) = true
      · simp [coordsSome, hmt, hin, leafPositionsList, leafPositions]
      · have hin2 : coordIsInPlanes planes (m (x :: rest) ++ [0]) = false :=
          Bool.eq_false_iff.mpr hin
        simp [coordsSome, hmt, hin2, leafPositionsList, leafPositions,
          ih cs2 hsz2 hwf.2]
    | .arr [] :: cs2 => simp [wfListB] at hwf
    | .arr (c0 :: crest) :: cs2 =>
      simp only [wfListB, Bool.and_eq_true] at hwf
      have hsz1 : sizeOf (c0 :: crest) ≤ n := by simp at hsz ⊢; omega
      have hsz2 : sizeOf cs2 ≤ n := by simp at hsz; omega
      have hchild : checkIfCoordsAreInsideFrustum m planes (.arr (c0 :: crest)) =
          .ok ((leafPositionsList (c0 :: crest)).any fun p =>
            coordIsInPlanes planes (m p ++ [0])) := by
        have h0 : checkIfCoordsAreInsideFrustum m planes (.arr (c0 :: crest)) =
            coordsSome m planes (c0 :: crest) := rfl
        rw [h0, ih (c0 :: crest) hsz1 hwf.1]
      have hstep : coordsSome m planes (Coords.arr (c0 :: crest) :: cs2) =
          (match checkIfCoordsAreInsideFrustum m planes (Coords.arr (c0 :: crest)) with
           | .error e => .error e
           | .ok b => if b then .ok true else coordsSome m planes cs2) := rfl
      have hl : leafPositionsList (Coords.arr (c0 :: crest) :: cs2) =
          leafPositionsList (c0 :: crest) ++ leafPositionsList cs2 := rfl
      cases hb : (leafPositionsList (c0 :: crest)).any fun p =>
          coordIsInPlanes planes (m p ++ [0]) with
      | true =>
        rw [hstep, hchild]
        show (if ((leafPositionsList (c0 :: crest)).any fun p =>
            coordIsInPlanes planes (m p ++ [0])) = true
          then Except.ok true else coordsSome m planes cs2) = _
        rw [hb, if_pos rfl, hl, List.any_append, hb, Bool.true_or]
      | false =>
        rw [hstep, hchild]
        show (if ((leafPositionsList (c0 :: crest)).any fun p =>
            coordIsInPlanes planes (m p ++ [0])) = true
          then Except.ok true else coordsSome m planes cs2) = _
        rw [hb, hl, List.any_append, hb, Bool.false_or]
        simp only [Bool.false_eq_true, if_false]
        exact ih cs2 hsz2 hwf.2

/-- On a well-formed coordinate structure, the frustum check returns
(without throwing) whether some leaf position, transformed and extended
with `z = 0`, lies inside all planes. -/
theorem checkIfCoordsAreInsideFrustum_eq (m : List ℚ → List ℚ)
    (planes : List FrustumPlane) (c : Coords) (h : c.wfB = true) :
    checkIfCoordsAreInsideFrustum m planes c =
      .ok ((leafPositions c).any fun p => coordIsInPlanes planes (m p ++ [0])) := by
  cases c with
  | pos x rest =>
    have hb := h
    simp only [Coords.wfB, Bool.and_eq_true, decide_eq_true_eq] at hb
    have hmt : matTransform m (x :: rest) = .ok (m (x :: rest)) := by
      simp only [matTransform, List.length_cons]
      rw [if_pos]
      omega
    simp [checkIfCoordsAreInsideFrustum, hmt, leafPositions]
  | arr cs =>
    have hwf : wfListB cs = true := by simpa [Coords.wfB] using h
    simp only [checkIfCoordsAreInsideFrustum, leafPositions]
    exact coordsSome_eq m planes (sizeOf cs) cs le_rfl hwf

/-- Claim C5: on well-formed input, the frustum check returns `true` iff
some leaf position of the structure, after the placement transform is
applied and a `z = 0` component appended, has `dot(normal, point) <
distance` for every plane of the set. -/
theorem checkIfCoordsAreInsideFrustum_iff (m : List ℚ → List ℚ)
    (planes : List FrustumPlane) (c : Coords) (h : c.wfB = true) :
    (checkIfCoordsAreInsideFrustum m planes c = .ok true ↔
      ∃ p ∈ leafPositions c,
        ∀ pl ∈ planes, dot3 pl.normal (m p ++ [0]) < pl.distance) := by
  rw [checkIfCoordsAreInsideFrustum_eq m planes c h]
  simp [coordIsInPlanes, List.any_eq_true, List.all_eq_true]

/-- Witness for claim C5 on the spec scenario: a point with local
coordinates `[0, 0]` under the identity transform and the single plane
with normal `(1, 0, 0)` and distance `10` is contained. -/
theorem checkIfCoordsAreInsideFrustum_iff_witness :
    checkIfCoordsAreInsideFrustum (fun v => v) [⟨(1, 0, 0), 10⟩] (.pos 0 [0]) = .ok true :=
  (checkIfCoordsAreInsideFrustum_iff (fun v => v) [⟨(1, 0, 0), 10⟩] (.pos 0 [0]) rfl).mpr
    ⟨[0, 0], by simp [leafPositions], by
      intro pl hpl
      simp only [List.mem_singleton] at hpl
      subst hpl
      norm_num [dot3]⟩

/-- Claim C7: frustum containment is monotone under plane tightening —
for a fixed geometry and transform, a leaf position contained under
planes whose distances are all decreased (normals unchanged) is also
contained under the original planes. -/
theorem coordIsInPlanes_mono (m : List ℚ → List ℚ) (c : Coords)
    (planes planesTight : List FrustumPlane)
    (hT : List.Forall₂
      (fun pl plT => plT.normal = pl.normal ∧ plT.distance ≤ pl.distance)
      planes planesTight)
    (p : List ℚ) (hp : p ∈ leafPositions c)
    (hin : coordIsInPlanes planesTight (m p ++ [0]) = true) :
    coordIsInPlanes planes (m p ++ [0]) = true := by
  clear hp
  revert hin
  induction hT with
  | nil => exact fun _ => rfl
  | cons hrel hrest ih =>
    intro hin
    simp only [coordIsInPlanes, List.all_cons, Bool.and_eq_true,
      decide_eq_true_eq] at hin ⊢
    exact ⟨lt_of_lt_of_le (hrel.1 ▸ hin.1) hrel.2, ih hin.2⟩

/-- Witness for claim C7: the point `[0, 0]` contained under the
tightened plane (distance 5) is contained under the original plane
(distance 10). -/
theorem coordIsInPlanes_mono_witness :
    coordIsInPlanes [⟨(1, 0, 0), 10⟩] ((fun v => v) [0, 0] ++ [0]) = true :=
  coordIsInPlanes_mono (fun v => v) (.pos 0 [0]) [⟨(1, 0, 0), 10⟩] [⟨(1, 0, 0), 5⟩]
    (List.Forall₂.cons ⟨rfl, by norm_num⟩ List.Forall₂.nil) [0, 0]
    (by simp [leafPositions]) (by norm_num [coordIsInPlanes, dot3])

/-- Claim C10: with an empty plane set every point passes the per-point
test vacuously, so every well-formed structure with at least one leaf
position is reported inside; and the empty coordinates array is never
reported inside, regardless of the planes. -/
theorem frustum_empty_planes_empty_coords :
    (∀ v : List ℚ, coordIsInPlanes [] v = true) ∧
    (∀ (m : List ℚ → List ℚ) (c : Coords), c.wfB = true → leafPositions c ≠ [] →
      checkIfCoordsAreInsideFrustum m [] c = .ok true) ∧
    (∀ (m : List ℚ → List ℚ) (planes : List FrustumPlane),
      checkIfCoordsAreInsideFrustum m planes (.arr []) = .ok false) := by
  refine ⟨fun v => rfl, ?_, fun m planes => rfl⟩
  intro m c hwf hne
  rw [checkIfCoordsAreInsideFrustum_eq m [] c hwf]
  obtain ⟨p, hp⟩ := List.exists_mem_of_ne_nil _ hne
  simp only [Except.ok.injEq, List.any_eq_true]
  exact ⟨p, hp, rfl⟩

/-- Witness for claim C10: a one-point geometry under the empty plane set
is reported inside. -/
theorem frustum_empty_planes_empty_coords_witness :
    checkIfCoordsAreInsideFrustum (fun v => v) [] (.arr [.pos 2 [3]]) = .ok true :=
  frustum_empty_planes_empty_coords.2.1 (fun v => v) (.arr [.pos 2 [3]]) rfl
    (by simp [leafPositions, leafPositionsList])

/-- A concrete `getViewportFeatures` run: one tile `(0, 0, 0)` holding two
features without any identity (both resolve to the sentinel `-1`), one
frustum plane with normal `(1, 0, 0)` and distance `1000` that both
features pass individually — yet only the first feature is returned,
because the sentinel is cached like any other identity. -/
theorem viewport_sentinel_run :
    getViewportFeatures
      [⟨0, 0, 0, some [⟨none, none, ⟨.pos 0 [0]⟩⟩, ⟨none, none, ⟨.pos 1 [1]⟩⟩]⟩] ""
      [⟨(1, 0, 0), 1000⟩] =
      .ok [⟨none, none, ⟨.pos 0 [0]⟩⟩] := by
  norm_num [getViewportFeatures, getViewportFeaturesAux, filterTileFeatures,
    getFeatureUniqueId, resolvedId, checkIfCoordsAreInsideFrustum, matTransform,
    tileMatrix, getModelMatrixScale, getCoordinateOrigin, WORLD_SIZE,
    coordIsInPlanes, dot3]

/-- The second sentinel feature of `viewport_sentinel_run` passes the
frustum test of its tile on its own. -/
theorem viewport_sentinel_run_second_passes :
    checkIfCoordsAreInsideFrustum
      (tileMatrix ⟨0, 0, 0,
        some [⟨none, none, ⟨.pos 0 [0]⟩⟩, ⟨none, none, ⟨.pos 1 [1]⟩⟩]⟩)
      [⟨(1, 0, 0), 1000⟩]
      (Geometry.coordinates ⟨.pos 1 [1]⟩) = .ok true := by
  norm_num [checkIfCoordsAreInsideFrustum, matTransform, tileMatrix,
    getModelMatrixScale, getCoordinateOrigin, WORLD_SIZE, coordIsInPlanes, dot3]

/-- Counterexample to claim C1 as stated: in `getViewportFeatures`, two
features whose resolved identity is the sentinel `-1` ARE treated as
duplicates of each other. Both features below resolve to `-1` and both
pass the frustum test of their tile, yet the result contains only the
first of them. -/
theorem viewport_sentinel_dedup_cex :
    getViewportFeatures
      [⟨0, 0, 0, some [⟨none, none, ⟨.pos 0 [0]⟩⟩, ⟨none, none, ⟨.pos 1 [1]⟩⟩]⟩] ""
      [⟨(1, 0, 0), 1000⟩] =
      .ok [⟨none, none, ⟨.pos 0 [0]⟩⟩] ∧
    resolvedId "" ⟨none, none, ⟨.pos 0 [0]⟩⟩ = .num (-1) ∧
    resolvedId "" ⟨none, none, ⟨.pos 1 [1]⟩⟩ = .num (-1) ∧
    checkIfCoordsAreInsideFrustum
      (tileMatrix ⟨0, 0, 0,
        some [⟨none, none, ⟨.pos 0 [0]⟩⟩, ⟨none, none, ⟨.pos 1 [1]⟩⟩]⟩)
      [⟨(1, 0, 0), 1000⟩]
      (Geometry.coordinates ⟨.pos 1 [1]⟩) = .ok true ∧
    (⟨none, none, ⟨.pos 0 [0]⟩⟩ : Feature) ≠ ⟨none, none, ⟨.pos 1 [1]⟩⟩ :=
  ⟨viewport_sentinel_run, rfl, rfl, viewport_sentinel_run_second_passes, by
    simp only [Feature.mk.injEq, Geometry.mk.injEq, Coords.pos.injEq, ne_eq,
      not_and, and_imp]
    intro _ _ h
    norm_num at h⟩

/-- Claim C1 (amended): in `getRenderedFeatures`, sentinel-identity
features are never considered duplicates — every sentinel element of the
input appears in the result (the sentinel elements of output and input
coincide, in order). In `getViewportFeatures`, however, the sentinel is
deduplicated like any defined identity: the resolved identities of the
result are pairwise distinct, so at most one sentinel feature appears and
two sentinel features that would both otherwise be included do not both
appear. -/
theorem sentinel_identity_handling :
    (∀ (uid : String) (hitResults : List PickedObject) (res : List Feature),
      getRenderedFeatures uid hitResults = .ok res →
      res.filter (fun f => decide (resolvedId uid f = .num (-1))) =
        (hitResults.map PickedObject.object).filter
          (fun f => decide (resolvedId uid f = .num (-1)))) ∧
    (∀ (tiles : List Tile) (uid : String) (planes : List FrustumPlane)
      (res : List Feature),
      getViewportFeatures tiles uid planes = .ok res →
      res.Pairwise (fun f g => resolvedId uid f ≠ resolvedId uid g)) :=
  ⟨fun uid hr res h => getRenderedFeaturesAux_keeps_sentinels uid hr [] res h,
   getViewportFeatures_pairwise_distinct⟩

/-- Witness for claim C1 (amended): the rendered-features part on the
scenario `[{id:1}, {id:1}, {sentinel}]`, and the viewport part on the
concrete two-sentinel run. -/
theorem sentinel_identity_handling_witness :
    ([⟨none, some (.num 1), ⟨.arr []⟩⟩, ⟨none, none, ⟨.arr []⟩⟩] : List Feature).filter
        (fun f => decide (resolvedId "" f = .num (-1))) =
      (([⟨⟨none, some (.num 1), ⟨.arr []⟩⟩⟩, ⟨⟨none, some (.num 1), ⟨.arr []⟩⟩⟩,
          ⟨⟨none, none, ⟨.arr []⟩⟩⟩] : List PickedObject).map
        PickedObject.object).filter
        (fun f => decide (resolvedId "" f = .num (-1))) ∧
    ([⟨none, none, ⟨.pos 0 [0]⟩⟩] : List Feature).Pairwise
      (fun f g => resolvedId "" f ≠ resolvedId "" g) :=
  ⟨sentinel_identity_handling.1 ""
      [⟨⟨none, some (.num 1), ⟨.arr []⟩⟩⟩, ⟨⟨none, some (.num 1), ⟨.arr []⟩⟩⟩,
        ⟨⟨none, none, ⟨.arr []⟩⟩⟩]
      [⟨none, some (.num 1), ⟨.arr []⟩⟩, ⟨none, none, ⟨.arr []⟩⟩] rfl,
   sentinel_identity_handling.2
      [⟨0, 0, 0, some [⟨none, none, ⟨.pos 0 [0]⟩⟩, ⟨none, none, ⟨.pos 1 [1]⟩⟩]⟩] ""
      [⟨(1, 0, 0), 1000⟩] [⟨none, none, ⟨.pos 0 [0]⟩⟩] viewport_sentinel_run⟩

/-- Witness for claim C2: the rendered-features part on the scenario
`[{id:1}, {id:1}, {sentinel}]`, and the viewport part on the concrete
two-sentinel run. -/
theorem dedup_invariant_witness :
    ([⟨none, some (.num 1), ⟨.arr []⟩⟩, ⟨none, none, ⟨.arr []⟩⟩] : List Feature).Pairwise
      (fun f g => resolvedId "" f = resolvedId "" g → resolvedId "" f = .num (-1)) ∧
    ([⟨none, none, ⟨.pos 0 [0]⟩⟩] : List Feature).Pairwise
      (fun f g => resolvedId "" f = resolvedId "" g → resolvedId "" f = .num (-1)) :=
  ⟨dedup_invariant.1 ""
      [⟨⟨none, some (.num 1), ⟨.arr []⟩⟩⟩, ⟨⟨none, some (.num 1), ⟨.arr []⟩⟩⟩,
        ⟨⟨none, none, ⟨.arr []⟩⟩⟩]
      [⟨none, some (.num 1), ⟨.arr []⟩⟩, ⟨none, none, ⟨.arr []⟩⟩] rfl,
   dedup_invariant.2
      [⟨0, 0, 0, some [⟨none, none, ⟨.pos 0 [0]⟩⟩, ⟨none, none, ⟨.pos 1 [1]⟩⟩]⟩] ""
      [⟨(1, 0, 0), 1000⟩] [⟨none, none, ⟨.pos 0 [0]⟩⟩] viewport_sentinel_run⟩

end MVT
